import Mathlib

/-!
# Verification of `eve_tools/ESI/metadata.py`

A shallow embedding of the metadata-resolution engine of the `eve_tools`
repository (file `eve_tools/ESI/metadata.py`): the `ESIMetadata` class, which
resolves an endpoint key into an `ESIRequest` descriptor (method selection,
parameter resolution against a shared parameter pool, and security-scope
extraction), together with the pure part of store construction
(`_load_metadata`, after the out-of-scope network/file acquisition).

Python dicts are embedded as association lists (`List (String × _)`), which
preserve the insertion order that Python dict iteration follows.  Python
exceptions (`KeyError(k)`, `IndexError`, `ValueError(msg)`) are embedded as an
explicit error type returned through `Except`.
-/

/-- Errors raised by the metadata engine.  `keyError k` embeds Python
`KeyError(k)` (a failed dict lookup, or the explicit
`KeyError(f"{key} is not a valid request type")`); `indexError` embeds
`IndexError` from indexing an empty sequence; `valueError msg` embeds
`ValueError(msg)`. -/
inductive MetaError where
  | keyError (key : String)
  | indexError
  | valueError (msg : String)
  deriving Repr, DecidableEq

/-- Modelled from the spec: the `Param` dataclass of module
`eve_tools/ESI/param.py`, which is not under `src/`.  Per spec §3
(ParameterDescriptor) and the positional constructor calls in
`metadata.py` (`Param(name, in, required, type[, default])`): fields
`name`, `_in` (the swagger "in" location), `required`, `type`, and an
optional `default` that is only ever supplied for pool-sourced
parameters. -/
structure Param where
  name : String
  _in : String
  required : Bool
  type : String
  default : Option String := none
  deriving Repr, DecidableEq

/-- Modelled from the spec: `ESIParams` of module `eve_tools/ESI/param.py`
(not under `src/`) holds a list of `Param` (spec §3, ParameterPool). -/
abbrev ESIParams := List Param

/-- Modelled from the spec: `ESIParams.__getitem__` of module
`eve_tools/ESI/param.py` (not under `src/`).  The pool is keyed by parameter
name (the pool is built from `metadata["parameters"].values()`, so only each
`Param`'s own name is available as a key); a dangling key yields nothing
(spec §3: "A reference to a key absent from the pool resolves to nothing"),
which the caller in `metadata.py` tests with `if param_:`. -/
def ESIParams.getItem (pool : ESIParams) (key : String) : Option Param :=
  pool.find? fun p => p.name = key

/-- One raw parameter entry of an endpoint's `"parameters"` list, as read by
`_parse_parameters`: the code reads `param.get("$ref", "")` and, for inline
entries, `param["name"]`, `param["in"]`, `param.get("required", False)`,
`param.get("type", "")`.  Absent dict keys are `none` (`ref` uses the `""`
default the code supplies). -/
structure RawParam where
  ref : String := ""
  name : Option String := none
  _in : Option String := none
  required : Option Bool := none
  type : Option String := none
  deriving Repr, DecidableEq

/-- One raw security-requirement entry: a dict mapping scheme names to scope
lists, embedded as an association list. -/
abbrev SecEntry := List (String × List String)

/-- The raw operation body found at `paths[key][method]`: `_parse_parameters`
reads `body["parameters"]` (KeyError when absent, hence `Option`) and
`_parse_security` reads `body.get("security", None)`. -/
structure Body where
  parameters : Option (List RawParam) := none
  security : Option (List SecEntry) := none
  deriving Repr, DecidableEq

/-- The result of resolution, `ESIRequest` of `metadata.py` restricted to the
four fields `__getitem__` sets (`request_key`, `request_type`, `parameters`,
`security`); the remaining dataclass fields (`url`, `headers`, `params`,
`kwd`, `token`) keep their defaults during resolution and are filled in later
by the HTTP layer, outside this engine. -/
structure ESIRequest where
  request_key : String
  request_type : String
  parameters : ESIParams
  security : List String
  deriving Repr, DecidableEq

/-- The `ESIMetadata` object after `_load_metadata` has populated it:
`paths` maps endpoint keys to method → body dicts (association lists in
insertion order), `securityDefinitions` is stored but never inspected by the
engine, and `metaParams` is the parameter pool `self._metaParams`. -/
structure ESIMetadata where
  paths : List (String × List (String × Body))
  securityDefinitions : List (String × String)
  metaParams : ESIParams
  deriving Repr, DecidableEq

/-- First-match association-list lookup, the embedding of `d[k]` /
`k in d.keys()` on a Python dict. -/
def lookupKey (k : String) : List (String × α) → Option α
  | [] => none
  | (k', v) :: rest => if k' = k then some v else lookupKey k rest

instance {ε α : Type} [DecidableEq ε] [DecidableEq α] :
    DecidableEq (Except ε α) := fun
  | .ok a, .ok b =>
    if h : a = b then .isTrue (by rw [h]) else .isFalse (by simp [h])
  | .error a, .error b =>
    if h : a = b then .isTrue (by rw [h]) else .isFalse (by simp [h])
  | .ok _, .error _ => .isFalse (by simp)
  | .error _, .ok _ => .isFalse (by simp)

/-- Worker for `splitChar`: walks the character list, accumulating the
current segment's characters in reverse. -/
def splitCharAux (sep : Char) : List Char → List Char → List String
  | [], acc => [String.mk acc.reverse]
  | c :: cs, acc =>
    if c = sep then String.mk acc.reverse :: splitCharAux sep cs []
    else splitCharAux sep cs (c :: acc)

/-- Python `s.split(sep)` for a one-character separator, as used by
`metaparam.split("/")`: splits at every occurrence of the separator, keeping
empty segments (`"".split("/") == [""]`). -/
def splitChar (sep : Char) (s : String) : List String :=
  splitCharAux sep s.data []

/-- The loop body of `ESIMetadata._parse_parameters`: for each entry, a
nonempty `$ref` is resolved through the pool keyed by the trailing `/`
segment (`metaparam.split("/")[-1]`), appending the pool hit and silently
skipping a miss; an inline entry requires `param["name"]` and `param["in"]`
(KeyError when absent) and constructs
`Param(name, in, required=False-default, type=""-default)` with no default
value. -/
def parseParamLoop (pool : ESIParams) : List RawParam → Except MetaError (List Param)
  | [] => .ok []
  | p :: rest =>
    if p.ref ≠ "" then
      match ESIParams.getItem pool ((splitChar '/' p.ref).getLastD "") with
      | some prm => (parseParamLoop pool rest).map fun tail => prm :: tail
      | none => parseParamLoop pool rest
    else
      match p.name with
      | none => .error (.keyError "name")
      | some nm =>
        match p._in with
        | none => .error (.keyError "in")
        | some loc =>
          (parseParamLoop pool rest).map fun tail =>
            { name := nm, _in := loc, required := p.required.getD false,
              type := p.type.getD "", default := none } :: tail

/-- `ESIMetadata._parse_parameters(self, body)`: reads `body["parameters"]`
(KeyError when the key is absent) and runs the resolution loop against
`self._metaParams`, here passed explicitly as `pool` (the only piece of
`self` the method reads). -/
def ESIMetadata._parse_parameters (pool : ESIParams) (body : Body) :
    Except MetaError ESIParams :=
  match body.parameters with
  | none => .error (.keyError "parameters")
  | some parameters => parseParamLoop pool parameters

/-- The message of the `ValueError` raised for a multi-scope endpoint.  The
Python source spells it as an f-string with a backslash line continuation, so
the literal contains the 32 spaces of the continuation line's indentation
before `Expect`. -/
def multipleScopesMsg (n : Nat) : String :=
  "API request with multiple scopes is not supported.                                Expect 1 scope, got "
    ++ toString n

/-- `ESIMetadata._parse_security(self, body)` (reads no state from `self`):
`body.get("security", None)` that is `None` or empty yields `[]`; otherwise
only `security[0]` is consulted (a longer list only logs a warning), its
`"evesso"` entry is read (KeyError when absent), a scope list of length
greater than one raises the `ValueError`, and otherwise the scope list itself
is returned. -/
def ESIMetadata._parse_security (body : Body) : Except MetaError (List String) :=
  match body.security with
  | none => .ok []
  | some [] => .ok []
  | some (first :: _) =>
    match lookupKey "evesso" first with
    | none => .error (.keyError "evesso")
    | some scope_ =>
      if 1 < scope_.length then
        .error (.valueError (multipleScopesMsg scope_.length))
      else .ok scope_

/-- The body of the method-selection loop in `__getitem__`:
`if t == "get" or t == "post": request_type = t`, with the running value of
the `request_type` variable (initially the list of method keys, possibly
rebound to a method string) as the fold state. -/
def methodScan (st : List String ⊕ String) (t : String) : List String ⊕ String :=
  if t = "get" ∨ t = "post" then Sum.inr t else st

/-- Lines 97–105 of `__getitem__`: `request_type = list(self.paths[key].keys())`,
the `len > 1` loop, and `request_type = request_type[0]`.  Faithful to the
source, including its handling of multi-method entries: when the method list
has more than one element the loop rebinds `request_type` to the LAST method
equal to `"get"` or `"post"` (the iterator still walks the original list);
the subsequent `request_type[0]` then takes either the head of the list (no
rebinding happened) or the FIRST CHARACTER of the rebound string — so a
rebound `"get"` becomes `"g"` — and `IndexError` is raised when the indexed
value is empty. -/
def selectRequestType (methods : List String) : Except MetaError String :=
  match (if 1 < methods.length then
      methods.foldl methodScan (Sum.inl methods)
    else Sum.inl methods) with
  | Sum.inl [] => .error .indexError
  | Sum.inl (t :: _) => .ok t
  | Sum.inr s =>
    match s.data with
    | [] => .error .indexError
    | c :: _ => .ok (String.mk [c])

/-- `ESIMetadata.__getitem__(self, key)`: unknown keys fail with
`KeyError(f"{key} is not a valid request type")`; otherwise the request type
selected by `selectRequestType` is looked up in `self.paths[key]` (KeyError
when it is not a method key) and the body's parameters and security are
resolved into an `ESIRequest`. -/
def ESIMetadata.getItem (self : ESIMetadata) (key : String) :
    Except MetaError ESIRequest :=
  match lookupKey key self.paths with
  | none => .error (.keyError (key ++ " is not a valid request type"))
  | some entry =>
    match selectRequestType (entry.map Prod.fst) with
    | .error e => .error e
    | .ok request_type =>
      match lookupKey request_type entry with
      | none => .error (.keyError request_type)
      | some request_body =>
        match ESIMetadata._parse_parameters self.metaParams request_body with
        | .error e => .error e
        | .ok parameters =>
          match ESIMetadata._parse_security request_body with
          | .error e => .error e
          | .ok security =>
            .ok { request_key := key, request_type := request_type,
                  parameters := parameters, security := security }

/-- One value of the raw document's `"parameters"` section, as read by the
pool-building comprehension in `_load_metadata`: `v["name"]`, `v["in"]` and
`v["type"]` are required (KeyError when absent), `v.get("required", False)`
and `v.get("default", None)` have defaults. -/
structure RawPoolEntry where
  name : Option String := none
  _in : Option String := none
  required : Option Bool := none
  type : Option String := none
  default : Option String := none
  deriving Repr, DecidableEq

/-- The parsed specification document handed to `_load_metadata` by the
(out-of-scope) file/network acquisition: the three top-level keys the code
reads, each `none` when absent, plus the remaining top-level keys (whose
values the code never reads) so that emptiness of the dict is expressible. -/
structure RawDoc where
  securityDefinitions : Option (List (String × String)) := none
  paths : Option (List (String × List (String × Body))) := none
  parameters : Option (List (String × RawPoolEntry)) := none
  extraKeys : List String := []
  deriving Repr, DecidableEq

/-- `not metadata or not metadata.keys()`: the parsed dict is empty exactly
when it has no keys at all. -/
def RawDoc.isEmpty (d : RawDoc) : Bool :=
  d.securityDefinitions.isNone && d.paths.isNone && d.parameters.isNone
    && d.extraKeys.isEmpty

/-- The pool-building comprehension of `_load_metadata`:
`[Param(f"{v['name']}", v["in"], v.get("required", False), v["type"],
v.get("default", None)) for v in metadata["parameters"].values()]`,
evaluating the positional arguments left to right. -/
def buildPoolParam (v : RawPoolEntry) : Except MetaError Param :=
  match v.name with
  | none => .error (.keyError "name")
  | some nm =>
    match v._in with
    | none => .error (.keyError "in")
    | some loc =>
      match v.type with
      | none => .error (.keyError "type")
      | some ty =>
        .ok { name := nm, _in := loc, required := v.required.getD false,
              type := ty, default := v.default }

/-- Builds `self._metaParams` from the document's `"parameters"` values, in
insertion order. -/
def buildPool : List (String × RawPoolEntry) → Except MetaError ESIParams
  | [] => .ok []
  | (_, v) :: rest => do
    let p ← buildPoolParam v
    let tail ← buildPool rest
    .ok (p :: tail)

/-- The pure tail of `ESIMetadata._load_metadata`, after the out-of-scope
file/network acquisition has produced a parsed document (`none` embeds a
null/absent document, which is falsy like an empty dict): an empty document
raises `ValueError("Metadata is empty.")`; then `metadata["securityDefinitions"]`,
`metadata["paths"]` and `metadata["parameters"]` are read in that order
(KeyError on the first absent one) and the parameter pool is built. -/
def ESIMetadata._load_metadata (doc : Option RawDoc) :
    Except MetaError ESIMetadata :=
  match doc with
  | none => .error (.valueError "Metadata is empty.")
  | some d =>
    if d.isEmpty then .error (.valueError "Metadata is empty.")
    else
      match d.securityDefinitions with
      | none => .error (.keyError "securityDefinitions")
      | some secDefs =>
        match d.paths with
        | none => .error (.keyError "paths")
        | some paths =>
          match d.parameters with
          | none => .error (.keyError "parameters")
          | some prs =>
            match buildPool prs with
            | .error e => .error e
            | .ok pool =>
              .ok { paths := paths, securityDefinitions := secDefs,
                    metaParams := pool }

/-- Per-entry resolution outcome for a well-formed raw parameter entry: the
pool hit (or miss) for a reference, the inline-constructed `Param` otherwise.
Used to state order preservation of `parseParamLoop`. -/
def resolveEntry (pool : ESIParams) (p : RawParam) : Option Param :=
  if p.ref ≠ "" then ESIParams.getItem pool ((splitChar '/' p.ref).getLastD "")
  else
    match p.name, p._in with
    | some nm, some loc =>
      some { name := nm, _in := loc, required := p.required.getD false,
             type := p.type.getD "", default := none }
    | _, _ => none

/-- A raw parameter entry that cannot raise `MalformedParameter`: either a
reference, or an inline entry carrying both `name` and `in`. -/
def wellFormedRaw (p : RawParam) : Bool :=
  p.ref != "" || (p.name.isSome && p._in.isSome)

/-- The family of construction-failure errors the spec groups under the name
`SpecMissing`: the `ValueError("Metadata is empty.")` raised for an empty
document, and the `KeyError` raised for an absent required top-level key. -/
def isSpecMissingError : MetaError → Bool
  | .valueError msg => msg == "Metadata is empty."
  | .keyError k => k == "securityDefinitions" || k == "paths" || k == "parameters"
  | _ => false

/-! ## Helper lemmas -/

theorem foldl_methodScan_id (l : List String) (init : List String ⊕ String)
    (h : ∀ t ∈ l, t ≠ "get" ∧ t ≠ "post") :
    l.foldl methodScan init = init := by
  induction l generalizing init with
  | nil => rfl
  | cons t ts ih =>
    have ht := h t (by simp)
    simp only [List.foldl_cons, methodScan, ht.1, ht.2, or_self, if_false]
    exact ih init fun u hu => h u (by simp [hu])

theorem lookupKey_cons_self {α : Type} (k : String) (v : α)
    (rest : List (String × α)) :
    lookupKey k ((k, v) :: rest) = some v := by
  simp [lookupKey]

theorem parseParamLoop_append (pool : ESIParams) (xs ys : List RawParam) :
    parseParamLoop pool (xs ++ ys)
      = (parseParamLoop pool xs).bind
          fun l => (parseParamLoop pool ys).map fun r => l ++ r := by
  induction xs with
  | nil =>
    cases hy : parseParamLoop pool ys with
    | error e => simp [parseParamLoop, Except.bind, Except.map, hy]
    | ok r => simp [parseParamLoop, Except.bind, Except.map, hy]
  | cons p rest ih =>
    by_cases href : p.ref ≠ ""
    · cases hg : ESIParams.getItem pool ((splitChar '/' p.ref).getLastD "") with
      | some prm =>
        rw [List.getLastD_eq_getLast?] at hg
        cases hr : parseParamLoop pool rest with
        | error e =>
          simp [parseParamLoop, href, hg, ih, hr, Except.bind, Except.map]
        | ok l =>
          cases hy : parseParamLoop pool ys with
          | error e =>
            simp [parseParamLoop, href, hg, ih, hr, hy, Except.bind, Except.map]
          | ok r =>
            simp [parseParamLoop, href, hg, ih, hr, hy, Except.bind, Except.map]
      | none =>
        rw [List.getLastD_eq_getLast?] at hg
        simp [parseParamLoop, href, hg, ih, Except.bind, Except.map]
    · rw [not_not] at href
      cases hn : p.name with
      | none => simp [parseParamLoop, href, hn, Except.bind]
      | some nm =>
        cases hi : p._in with
        | none => simp [parseParamLoop, href, hn, hi, Except.bind]
        | some loc =>
          cases hr : parseParamLoop pool rest with
          | error e =>
            simp [parseParamLoop, href, hn, hi, ih, hr, Except.bind, Except.map]
          | ok l =>
            cases hy : parseParamLoop pool ys with
            | error e =>
              simp [parseParamLoop, href, hn, hi, ih, hr, hy, Except.bind,
                Except.map]
            | ok r =>
              simp [parseParamLoop, href, hn, hi, ih, hr, hy, Except.bind,
                Except.map]

theorem parseParamLoop_wf (pool : ESIParams) (xs : List RawParam)
    (h : ∀ p ∈ xs, wellFormedRaw p = true) :
    parseParamLoop pool xs = .ok (xs.filterMap (resolveEntry pool)) := by
  induction xs with
  | nil => rfl
  | cons p rest ih =>
    have hrest := ih fun q hq => h q (by simp [hq])
    have hp := h p (by simp)
    by_cases href : p.ref ≠ ""
    · cases hg : ESIParams.getItem pool ((splitChar '/' p.ref).getLastD "") with
      | some prm =>
        rw [List.getLastD_eq_getLast?] at hg
        simp [parseParamLoop, resolveEntry, href, hg, hrest, Except.map]
      | none =>
        rw [List.getLastD_eq_getLast?] at hg
        simp [parseParamLoop, resolveEntry, href, hg, hrest]
    · rw [not_not] at href
      simp only [wellFormedRaw, href, bne_self_eq_false, Bool.false_or,
        Bool.and_eq_true, Option.isSome_iff_exists] at hp
      obtain ⟨⟨nm, hnm⟩, ⟨loc, hloc⟩⟩ := hp
      simp [parseParamLoop, resolveEntry, href, hnm, hloc, hrest, Except.map]

/-! ## Claim theorems -/

/-- C8: for every key not present in the store's paths mapping,
`resolve(key)` (i.e. `ESIMetadata.__getitem__`) fails with
`UnknownEndpoint(key)` — embedded as
`KeyError(f"{key} is not a valid request type")` — and returns no
descriptor. -/
theorem getItem_unknown_key (m : ESIMetadata) (key : String)
    (h : lookupKey key m.paths = none) :
    m.getItem key = .error (.keyError (key ++ " is not a valid request type")) := by
  simp [ESIMetadata.getItem, h]

/-- Witness for C8 at a concrete store and key. -/
theorem getItem_unknown_key_witness :
    ESIMetadata.getItem
        { paths := [("/markets/prices/", [("get", { parameters := some [] })])],
          securityDefinitions := [], metaParams := [] } "/no/such/endpoint/"
      = .error (.keyError ("/no/such/endpoint/" ++ " is not a valid request type")) :=
  getItem_unknown_key _ _ (by decide)

/-- C3: for every security block whose first entry maps the scheme key
`"evesso"` to a list of more than one scope string, `_parse_security` fails
with the multiple-scopes `ValueError` whose message carries the observed
scope count, and no scope sequence is produced. -/
theorem parse_security_multiple_scopes (ps : Option (List RawParam))
    (e : SecEntry) (rest : List SecEntry) (scopes : List String)
    (h1 : lookupKey "evesso" e = some scopes) (h2 : 1 < scopes.length) :
    ESIMetadata._parse_security { parameters := ps, security := some (e :: rest) }
      = .error (.valueError (multipleScopesMsg scopes.length)) := by
  simp [ESIMetadata._parse_security, h1, h2]

/-- Witness for C3: the spec's example `[{"evesso": ["scope1","scope2"]}]`
fails with the two-scope error. -/
theorem parse_security_multiple_scopes_witness :
    ESIMetadata._parse_security
        { parameters := none,
          security := some [[("evesso", ["scope1", "scope2"])]] }
      = .error (.valueError (multipleScopesMsg 2)) :=
  parse_security_multiple_scopes none _ [] ["scope1", "scope2"] (by decide)
    (by decide)

/-- C4: `_parse_security` maps an absent or empty security input to the empty
scope sequence; with more than one security-requirement entry only the first
is considered, the rest being ignored without error; and when the chosen
entry maps `"evesso"` to exactly one scope the result is the single-element
sequence containing that scope. -/
theorem parse_security_policy :
    (∀ ps : Option (List RawParam),
      ESIMetadata._parse_security { parameters := ps, security := none } = .ok []
        ∧ ESIMetadata._parse_security { parameters := ps, security := some [] }
            = .ok [])
    ∧ (∀ (ps : Option (List RawParam)) (e : SecEntry) (rest : List SecEntry),
        ESIMetadata._parse_security { parameters := ps, security := some (e :: rest) }
          = ESIMetadata._parse_security { parameters := ps, security := some [e] })
    ∧ (∀ (ps : Option (List RawParam)) (e : SecEntry) (rest : List SecEntry)
        (s : String), lookupKey "evesso" e = some [s] →
        ESIMetadata._parse_security { parameters := ps, security := some (e :: rest) }
          = .ok [s]) := by
  refine ⟨fun ps => ⟨rfl, rfl⟩, fun ps e rest => rfl, fun ps e rest s h => ?_⟩
  simp [ESIMetadata._parse_security, h]

/-- Witness for C4: a two-entry security block resolves to the first entry's
single scope, ignoring the second entry. -/
theorem parse_security_policy_witness :
    ESIMetadata._parse_security
        { parameters := none,
          security := some [[("evesso", ["scope1"])], [("evesso", ["scope2"])]] }
      = .ok ["scope1"] :=
  parse_security_policy.2.2 none [("evesso", ["scope1"])]
    [[("evesso", ["scope2"])]] "scope1" (by decide)

/-- C10: `_parse_security` reads the scope list of the first security entry
under the literal scheme key `"evesso"` only: for every nonempty security
block whose first entry does not contain `"evesso"`, resolution fails with a
lookup error (`KeyError("evesso")`), even when that entry maps some other
scheme name to exactly one scope. -/
theorem parse_security_evesso_only (ps : Option (List RawParam)) (e : SecEntry)
    (rest : List SecEntry) (h : lookupKey "evesso" e = none) :
    ESIMetadata._parse_security { parameters := ps, security := some (e :: rest) }
      = .error (.keyError "evesso") := by
  simp [ESIMetadata._parse_security, h]

/-- Witness for C10: a first entry mapping a different scheme name to exactly
one scope still fails the `"evesso"` lookup. -/
theorem parse_security_evesso_only_witness :
    ESIMetadata._parse_security
        { parameters := none, security := some [[("othersso", ["scope1"])]] }
      = .error (.keyError "evesso") :=
  parse_security_evesso_only none [("othersso", ["scope1"])] [] (by decide)

/-- C6: a reference entry whose trailing path component is not a key of the
parameter pool is skipped without error — resolution of the remaining entries
is unchanged — and in particular the raw parameter list `[ref(missing)]`
resolves to the empty sequence. -/
theorem parse_parameters_dangling_ref (pool : ESIParams) (p : RawParam)
    (rest : List RawParam) (sec : Option (List SecEntry))
    (h1 : p.ref ≠ "")
    (h2 : ESIParams.getItem pool ((splitChar '/' p.ref).getLastD "") = none) :
    ESIMetadata._parse_parameters pool
        { parameters := some (p :: rest), security := sec }
      = ESIMetadata._parse_parameters pool
          { parameters := some rest, security := sec }
    ∧ ESIMetadata._parse_parameters pool
        { parameters := some [p], security := sec } = .ok [] := by
  have h2' := h2
  rw [List.getLastD_eq_getLast?] at h2'
  constructor
  · simp [ESIMetadata._parse_parameters, parseParamLoop, h1, h2']
  · simp [ESIMetadata._parse_parameters, parseParamLoop, h1, h2']

/-- Witness for C6: `[ref(missing)]` against a nonempty pool that lacks the
key `missing` resolves to the empty sequence. -/
theorem parse_parameters_dangling_ref_witness :
    ESIMetadata._parse_parameters
        [{ name := "page", _in := "query", required := false,
           type := "integer", default := some "1" }]
        { parameters := some [{ ref := "#/parameters/missing" }],
          security := none }
      = .ok [] :=
  (parse_parameters_dangling_ref _ _ [] none (by decide) (by decide)).2

/-- C7: parameter resolution is order-preserving — on a raw list whose inline
entries are all well formed it succeeds and returns exactly the per-entry
resolutions (`List.filterMap`, which keeps the input order and performs no
deduplication): inline entries contribute their own descriptor and reference
entries contribute their pool hit, in place. -/
theorem parse_parameters_order_preserving (pool : ESIParams)
    (raws : List RawParam) (sec : Option (List SecEntry))
    (h : ∀ p ∈ raws, wellFormedRaw p = true) :
    ESIMetadata._parse_parameters pool
        { parameters := some raws, security := sec }
      = .ok (raws.filterMap (resolveEntry pool)) := by
  simp only [ESIMetadata._parse_parameters]
  exact parseParamLoop_wf pool raws h

/-- Witness for C7: the spec's example `[A, ref(B), C]` with `B` present in
the pool resolves to `[A, B, C]` in that order. -/
theorem parse_parameters_order_preserving_witness :
    ESIMetadata._parse_parameters
        [{ name := "B", _in := "query", required := false, type := "integer",
           default := some "1" }]
        { parameters := some
            [{ name := some "A", _in := some "path" },
             { ref := "#/parameters/B" },
             { name := some "C", _in := some "query" }],
          security := none }
      = .ok
          [{ name := "A", _in := "path", required := false, type := "",
             default := none },
           { name := "B", _in := "query", required := false, type := "integer",
             default := some "1" },
           { name := "C", _in := "query", required := false, type := "",
             default := none }] := by
  rw [parse_parameters_order_preserving _ _ none (by decide)]
  decide

/-- C5: for an inline (non-reference) raw parameter entry reached after a
well-formed prefix, resolution fails with `MalformedParameter` — embedded as
`KeyError("name")` / `KeyError("in")` — when the entry lacks the name or the
location field; when both are present, the descriptor constructed for the
entry carries `required = false` when the raw `required` field is absent,
`type = ""` when the raw `type` field is absent, and never carries a default
value. -/
theorem parse_parameters_inline (pool : ESIParams) (pre : List RawParam)
    (p : RawParam) (rest : List RawParam) (sec : Option (List SecEntry))
    (hpre : ∀ q ∈ pre, wellFormedRaw q = true) (href : p.ref = "") :
    (p.name = none →
      ESIMetadata._parse_parameters pool
          { parameters := some (pre ++ p :: rest), security := sec }
        = .error (.keyError "name"))
    ∧ (∀ nm, p.name = some nm → p._in = none →
      ESIMetadata._parse_parameters pool
          { parameters := some (pre ++ p :: rest), security := sec }
        = .error (.keyError "in"))
    ∧ (∀ nm loc out, p.name = some nm → p._in = some loc →
      ESIMetadata._parse_parameters pool
          { parameters := some (pre ++ p :: rest), security := sec }
        = .ok out →
      ∃ prm tail, out = pre.filterMap (resolveEntry pool) ++ prm :: tail
        ∧ prm.default = none
        ∧ (p.required = none → prm.required = false)
        ∧ (p.type = none → prm.type = "")) := by
  have hsplit : parseParamLoop pool (pre ++ p :: rest)
      = (parseParamLoop pool (p :: rest)).map
          fun r => pre.filterMap (resolveEntry pool) ++ r := by
    rw [parseParamLoop_append pool pre (p :: rest),
      parseParamLoop_wf pool pre hpre]
    cases parseParamLoop pool (p :: rest) with
    | error e => rfl
    | ok r => rfl
  refine ⟨fun hn => ?_, fun nm hn hi => ?_, fun nm loc out hn hi hout => ?_⟩
  · simp [ESIMetadata._parse_parameters, hsplit, parseParamLoop, href, hn,
      Except.map]
  · simp [ESIMetadata._parse_parameters, hsplit, parseParamLoop, href, hn, hi,
      Except.map]
  · simp only [ESIMetadata._parse_parameters, hsplit] at hout
    cases hr : parseParamLoop pool (p :: rest) with
    | error e => rw [hr] at hout; exact absurd hout (by simp [Except.map])
    | ok r =>
      rw [hr] at hout
      simp only [Except.map, Except.ok.injEq] at hout
      simp only [parseParamLoop, href, hn, hi, ne_eq, not_true_eq_false,
        if_false] at hr
      cases hrest : parseParamLoop pool rest with
      | error e => rw [hrest] at hr; exact absurd hr (by simp [Except.map])
      | ok tail =>
        rw [hrest] at hr
        simp only [Except.map, Except.ok.injEq] at hr
        refine ⟨Param.mk nm loc (p.required.getD false) (p.type.getD "") none,
          tail, ?_, rfl, fun hreq => by simp [hreq], fun hty => by simp [hty]⟩
        rw [← hout, ← hr]

theorem selectRequestType_single (t : String) : selectRequestType [t] = .ok t :=
  rfl

theorem selectRequestType_no_getpost (mth : String) (ms : List String)
    (h : ∀ t ∈ mth :: ms, t ≠ "get" ∧ t ≠ "post") :
    selectRequestType (mth :: ms) = .ok mth := by
  cases ms with
  | nil => rfl
  | cons m2 ms' =>
    have hsel : (if 1 < (mth :: m2 :: ms').length then
        (mth :: m2 :: ms').foldl methodScan (Sum.inl (mth :: m2 :: ms'))
      else Sum.inl (mth :: m2 :: ms')) = Sum.inl (mth :: m2 :: ms') := by
      rw [if_pos (by simp), foldl_methodScan_id _ _ h]
    unfold selectRequestType
    rw [hsel]

/-- C1 (amended): for every key present in the store's paths whose entry has
exactly one method, or more than one method none of which is `get` or `post`,
`resolve(key)` succeeds (given well-formed parameter and security data) and
returns the entry's first-listed method — which need not be `get` or `post`;
in particular, when an entry maps more than one method and none of them is
`get` or `post`, the first-listed method is silently selected rather than
failing with an `UnsupportedMethodSet` error (no such error exists in the
code). -/
theorem getItem_method_selection (m : ESIMetadata) (key mth : String)
    (b : Body) (rest : List (String × Body)) (ps : ESIParams)
    (sc : List String)
    (hlook : lookupKey key m.paths = some ((mth, b) :: rest))
    (hmeth : rest = []
      ∨ ∀ t ∈ ((mth, b) :: rest).map Prod.fst, t ≠ "get" ∧ t ≠ "post")
    (hps : ESIMetadata._parse_parameters m.metaParams b = .ok ps)
    (hsec : ESIMetadata._parse_security b = .ok sc) :
    m.getItem key = .ok (ESIRequest.mk key mth ps sc) := by
  rcases hmeth with hrest | hno
  · subst hrest
    simp [ESIMetadata.getItem, hlook, selectRequestType_single, lookupKey,
      hps, hsec]
  · have hsel : selectRequestType (mth :: rest.map Prod.fst) = .ok mth :=
      selectRequestType_no_getpost mth (rest.map Prod.fst) (by simpa using hno)
    simp [ESIMetadata.getItem, hlook, hsel, lookupKey, hps, hsec]

/-- Counterexample to C1 as stated: a store whose only entry maps the two
methods `put` and `delete` (neither `get` nor `post`).  `resolve` does not
fail with `UnsupportedMethodSet` — it succeeds, silently selecting the
first-listed method `put`, which is not in {get, post}. -/
theorem getItem_method_selection_counterexample :
    ESIMetadata.getItem
        { paths := [("/k/", [("put", { parameters := some [] }),
                             ("delete", { parameters := some [] })])],
          securityDefinitions := [], metaParams := [] } "/k/"
      = .ok (ESIRequest.mk "/k/" "put" [] [])
    ∧ ("put" : String) ≠ "get" ∧ ("put" : String) ≠ "post" := by
  decide

/-- Witness for the amended C1 at a concrete two-method entry with neither
`get` nor `post`. -/
theorem getItem_method_selection_witness :
    ESIMetadata.getItem
        { paths := [("/w/", [("delete", Body.mk (some []) none),
                             ("put", Body.mk (some []) none)])],
          securityDefinitions := [], metaParams := [] } "/w/"
      = .ok (ESIRequest.mk "/w/" "delete" [] []) :=
  getItem_method_selection
    { paths := [("/w/", [("delete", Body.mk (some []) none),
                         ("put", Body.mk (some []) none)])],
      securityDefinitions := [], metaParams := [] }
    "/w/" "delete" (Body.mk (some []) none) [("put", Body.mk (some []) none)]
    [] [] (by decide) (Or.inr (by decide)) (by decide) (by decide)

/-- C2 (code bug): for an entry mapping both `get` and `post`, `__getitem__`
does not select `get` — the loop rebinds `request_type` to the string
`"post"` (the last match), `request_type[0]` truncates it to `"p"`, and the
lookup `self.paths[key]["p"]` raises `KeyError("p")`.  Resolution crashes
instead of producing a get-descriptor, for any operation bodies. -/
theorem getItem_get_post_keyerror (key : String) (b1 b2 : Body) :
    ESIMetadata.getItem
        { paths := [(key, [("get", b1), ("post", b2)])],
          securityDefinitions := [], metaParams := [] } key
      = .error (.keyError "p") := by
  simp [ESIMetadata.getItem, lookupKey, selectRequestType, methodScan]

/-- C9: store construction (`_load_metadata`, after the out-of-scope document
acquisition) fails with a SpecMissing-family error whenever the parsed
document is empty or lacks one of the required top-level keys `paths`,
`securityDefinitions`, `parameters`; and on success the store's three fields
are exactly the document's `securityDefinitions` and `paths` sections and
the pool built from its `parameters` section. -/
theorem load_metadata_spec_missing :
    (ESIMetadata._load_metadata none = .error (.valueError "Metadata is empty."))
    ∧ (∀ d : RawDoc, d.isEmpty = true →
        ESIMetadata._load_metadata (some d)
          = .error (.valueError "Metadata is empty."))
    ∧ (∀ d : RawDoc,
        d.securityDefinitions = none ∨ d.paths = none ∨ d.parameters = none →
        ∃ e, ESIMetadata._load_metadata (some d) = .error e
          ∧ isSpecMissingError e = true)
    ∧ (∀ (d : RawDoc) (store : ESIMetadata),
        ESIMetadata._load_metadata (some d) = .ok store →
        d.securityDefinitions = some store.securityDefinitions
          ∧ d.paths = some store.paths
          ∧ ∃ prs, d.parameters = some prs
              ∧ buildPool prs = .ok store.metaParams) := by
  refine ⟨rfl, fun d hemp => ?_, fun d hmiss => ?_, fun d store hok => ?_⟩
  · simp [ESIMetadata._load_metadata, hemp]
  · by_cases hemp : d.isEmpty
    · exact ⟨.valueError "Metadata is empty.",
        by simp [ESIMetadata._load_metadata, hemp], rfl⟩
    · cases hsd : d.securityDefinitions with
      | none => exact ⟨.keyError "securityDefinitions",
          by simp [ESIMetadata._load_metadata, hemp, hsd], rfl⟩
      | some sd =>
        cases hp : d.paths with
        | none => exact ⟨.keyError "paths",
            by simp [ESIMetadata._load_metadata, hemp, hsd, hp], rfl⟩
        | some pth =>
          cases hpr : d.parameters with
          | none => exact ⟨.keyError "parameters",
              by simp [ESIMetadata._load_metadata, hemp, hsd, hp, hpr], rfl⟩
          | some prs =>
            rcases hmiss with h | h | h
            · rw [hsd] at h; exact absurd h (by simp)
            · rw [hp] at h; exact absurd h (by simp)
            · rw [hpr] at h; exact absurd h (by simp)
  · by_cases hemp : d.isEmpty
    · rw [ESIMetadata._load_metadata] at hok
      simp [hemp] at hok
    · cases hsd : d.securityDefinitions with
      | none =>
        rw [ESIMetadata._load_metadata] at hok
        simp [hemp, hsd] at hok
      | some sd =>
        cases hp : d.paths with
        | none =>
          rw [ESIMetadata._load_metadata] at hok
          simp [hemp, hsd, hp] at hok
        | some pth =>
          cases hpr : d.parameters with
          | none =>
            rw [ESIMetadata._load_metadata] at hok
            simp [hemp, hsd, hp, hpr] at hok
          | some prs =>
            cases hb : buildPool prs with
            | error e =>
              rw [ESIMetadata._load_metadata] at hok
              simp [hemp, hsd, hp, hpr, hb] at hok
            | ok pool =>
              rw [ESIMetadata._load_metadata] at hok
              simp only [hemp, hsd, hp, hpr, hb, Bool.false_eq_true,
                if_false, Except.ok.injEq] at hok
              subst hok
              exact ⟨rfl, rfl, prs, rfl, hb⟩

/-- Witness for C9: an empty document, a document lacking `paths`, and a
minimal complete document, each at the corresponding conjunct of the
theorem. -/
theorem load_metadata_spec_missing_witness :
    (ESIMetadata._load_metadata (some (RawDoc.mk none none none []))
        = .error (.valueError "Metadata is empty."))
    ∧ (∃ e, ESIMetadata._load_metadata (some (RawDoc.mk (some []) none none []))
        = .error e ∧ isSpecMissingError e = true)
    ∧ ((RawDoc.mk (some []) (some []) (some []) []).securityDefinitions
          = some (ESIMetadata.mk [] [] []).securityDefinitions
        ∧ (RawDoc.mk (some []) (some []) (some []) []).paths
            = some (ESIMetadata.mk [] [] []).paths
        ∧ ∃ prs, (RawDoc.mk (some []) (some []) (some []) []).parameters
              = some prs
            ∧ buildPool prs = .ok (ESIMetadata.mk [] [] []).metaParams) :=
  ⟨load_metadata_spec_missing.2.1 (RawDoc.mk none none none []) (by decide),
   load_metadata_spec_missing.2.2.1 (RawDoc.mk (some []) none none [])
     (Or.inr (Or.inl rfl)),
   load_metadata_spec_missing.2.2.2 (RawDoc.mk (some []) (some []) (some []) [])
     (ESIMetadata.mk [] [] []) (by decide)⟩

/-- Witness for C5: an inline entry with a location but no name fails with
`KeyError("name")`. -/
theorem parse_parameters_inline_witness :
    ESIMetadata._parse_parameters []
        { parameters := some ([] ++ ({ _in := some "query" } : RawParam) :: []),
          security := none }
      = .error (.keyError "name") :=
  (parse_parameters_inline [] [] { _in := some "query" } [] none
    (by decide) rfl).1 rfl
